import Mathlib

/-!
Verification of the ephemeral chat-relay server with optional public tunnel
(src-tauri/src/nodes/chat_web_server_node.rs).

The Rust module keeps two process-wide registries guarded by read/write locks:
a map from the string key "chat_server_{port}" to a running server handle, and
a map from node id to the spawned cloudflared child process.  Both are shallowly
embedded as association lists with string keys; HashMap iteration order is
unspecified in Rust, so the list order stands for one admissible iteration
order, and every order-sensitive statement below is either proved under a
uniqueness hypothesis that makes the order irrelevant, or is a counterexample
showing that some admissible order violates the property.
-/

set_option maxHeartbeats 1000000

namespace ChatWebServer

/-! ### Association lists standing for the two HashMap registries -/

/-- First value bound to key k (HashMap.get). -/
def lookupA {α : Type} : List (String × α) → String → Option α
  | [], _ => none
  | e :: rest, k => if e.1 = k then some e.2 else lookupA rest k

/-- HashMap.insert: replace the first binding of k in place, else append. -/
def insertA {α : Type} : List (String × α) → String → α → List (String × α)
  | [], k, v => [(k, v)]
  | e :: rest, k, v => if e.1 = k then (k, v) :: rest else e :: insertA rest k v

/-- HashMap.remove: drop the first binding of k. -/
def eraseA {α : Type} : List (String × α) → String → List (String × α)
  | [], _ => []
  | e :: rest, k => if e.1 = k then rest else e :: eraseA rest k

/-- iter_mut + break: mutate the value of the first entry satisfying p. -/
def updateFirstA {α : Type} : List (String × α) → (String × α → Bool) → (α → α) →
    List (String × α)
  | [], _, _ => []
  | e :: rest, p, f => if p e then (e.1, f e.2) :: rest else e :: updateFirstA rest p f

theorem mem_insertA {α : Type} {l : List (String × α)} {k : String} {v : α} {a : String × α}
    (h : a ∈ insertA l k v) : a = (k, v) ∨ a ∈ l := by
  induction l with
  | nil => simpa [insertA] using h
  | cons e rest ih =>
    by_cases hk : e.1 = k
    · simp only [insertA, if_pos hk, List.mem_cons] at h
      rcases h with h | h
      · exact Or.inl h
      · exact Or.inr (List.mem_cons_of_mem _ h)
    · simp only [insertA, if_neg hk, List.mem_cons] at h
      rcases h with h | h
      · exact Or.inr (h ▸ List.mem_cons_self _ _)
      · rcases ih h with h' | h'
        · exact Or.inl h'
        · exact Or.inr (List.mem_cons_of_mem _ h')

theorem self_mem_insertA {α : Type} (l : List (String × α)) (k : String) (v : α) :
    (k, v) ∈ insertA l k v := by
  induction l with
  | nil => simp [insertA]
  | cons e rest ih =>
    by_cases hk : e.1 = k
    · simp [insertA, if_pos hk]
    · simp only [insertA, if_neg hk, List.mem_cons]
      exact Or.inr ih

theorem keys_insertA_sub {α : Type} {l : List (String × α)} {k : String} {v : α} {a : String}
    (h : a ∈ (insertA l k v).map Prod.fst) : a = k ∨ a ∈ l.map Prod.fst := by
  rcases List.mem_map.mp h with ⟨e, he, rfl⟩
  rcases mem_insertA he with h' | h'
  · exact Or.inl (by rw [h'])
  · exact Or.inr (List.mem_map_of_mem _ h')

theorem nodup_keys_insertA {α : Type} {l : List (String × α)} (k : String) (v : α)
    (h : (l.map Prod.fst).Nodup) : ((insertA l k v).map Prod.fst).Nodup := by
  induction l with
  | nil => simp [insertA]
  | cons e rest ih =>
    simp only [List.map_cons, List.nodup_cons] at h
    by_cases hk : e.1 = k
    · simp only [insertA, if_pos hk, List.map_cons, List.nodup_cons]
      exact ⟨by rw [← hk]; exact h.1, h.2⟩
    · simp only [insertA, if_neg hk, List.map_cons, List.nodup_cons]
      refine ⟨fun hmem => ?_, ih h.2⟩
      rcases keys_insertA_sub hmem with h' | h'
      · exact hk h'
      · exact h.1 h'

theorem insertA_of_not_mem_keys {α : Type} {l : List (String × α)} {k : String} (v : α)
    (h : k ∉ l.map Prod.fst) : insertA l k v = l ++ [(k, v)] := by
  induction l with
  | nil => simp [insertA]
  | cons e rest ih =>
    simp only [List.map_cons, List.mem_cons, not_or] at h
    have hk : e.1 ≠ k := fun he => h.1 he.symm
    simp only [insertA, if_neg hk, List.cons_append, List.cons.injEq, true_and]
    exact ih h.2

theorem eraseA_sublist {α : Type} (l : List (String × α)) (k : String) :
    (eraseA l k).Sublist l := by
  induction l with
  | nil => simp [eraseA]
  | cons e rest ih =>
    by_cases hk : e.1 = k
    · rw [eraseA, if_pos hk]
      exact List.sublist_cons_self e rest
    · rw [eraseA, if_neg hk]
      exact List.Sublist.cons₂ e ih

theorem mem_eraseA {α : Type} {l : List (String × α)} {k : String} {a : String × α}
    (h : a ∈ eraseA l k) : a ∈ l :=
  (eraseA_sublist l k).mem h

theorem nodup_keys_eraseA {α : Type} {l : List (String × α)} (k : String)
    (h : (l.map Prod.fst).Nodup) : ((eraseA l k).map Prod.fst).Nodup :=
  ((eraseA_sublist l k).map Prod.fst).nodup h

theorem lookupA_insertA_self {α : Type} (l : List (String × α)) (k : String) (v : α) :
    lookupA (insertA l k v) k = some v := by
  induction l with
  | nil => simp [insertA, lookupA]
  | cons e rest ih =>
    by_cases hk : e.1 = k
    · simp [insertA, if_pos hk, lookupA]
    · simp [insertA, if_neg hk, lookupA, hk, ih]

theorem lookupA_insertA_ne {α : Type} (l : List (String × α)) {k k' : String} (v : α)
    (h : k' ≠ k) : lookupA (insertA l k v) k' = lookupA l k' := by
  have hkk : k ≠ k' := Ne.symm h
  induction l with
  | nil => simp [insertA, lookupA, hkk]
  | cons e rest ih =>
    by_cases hk : e.1 = k
    · subst hk
      simp [insertA, lookupA, hkk]
    · simp [insertA, if_neg hk, lookupA, ih]

theorem lookupA_eq_none_of_not_mem {α : Type} {l : List (String × α)} {k : String}
    (h : k ∉ l.map Prod.fst) : lookupA l k = none := by
  induction l with
  | nil => simp [lookupA]
  | cons e rest ih =>
    simp only [List.map_cons, List.mem_cons, not_or] at h
    have : e.1 ≠ k := fun he => h.1 he.symm
    simp [lookupA, this, ih h.2]

theorem lookupA_mem {α : Type} {l : List (String × α)} {k : String} {v : α}
    (h : lookupA l k = some v) : (k, v) ∈ l := by
  induction l with
  | nil => simp [lookupA] at h
  | cons e rest ih =>
    by_cases hk : e.1 = k
    · simp only [lookupA, if_pos hk] at h
      have he : e = (k, v) := Prod.ext hk (Option.some.inj h)
      rw [← he]
      exact List.mem_cons_self _ _
    · simp only [lookupA, if_neg hk] at h
      exact List.mem_cons_of_mem _ (ih h)

theorem lookupA_eraseA_self {α : Type} {l : List (String × α)} (k : String)
    (h : (l.map Prod.fst).Nodup) : lookupA (eraseA l k) k = none := by
  induction l with
  | nil => simp [eraseA, lookupA]
  | cons e rest ih =>
    simp only [List.map_cons, List.nodup_cons] at h
    by_cases hk : e.1 = k
    · simp only [eraseA, if_pos hk]
      exact lookupA_eq_none_of_not_mem (hk ▸ h.1)
    · simp [eraseA, if_neg hk, lookupA, hk, ih h.2]

theorem lookupA_eraseA_ne {α : Type} (l : List (String × α)) {k k' : String}
    (h : k' ≠ k) : lookupA (eraseA l k) k' = lookupA l k' := by
  induction l with
  | nil => simp [eraseA]
  | cons e rest ih =>
    by_cases hk : e.1 = k
    · have hne : e.1 ≠ k' := by rw [hk]; exact Ne.symm h
      simp [eraseA, if_pos hk, lookupA, hne]
    · simp [eraseA, if_neg hk, lookupA, ih]

theorem mem_eraseA_key_ne {α : Type} {l : List (String × α)} {k : String} {a : String × α}
    (hnd : (l.map Prod.fst).Nodup) (h : a ∈ eraseA l k) : a ∈ l ∧ a.1 ≠ k := by
  induction l with
  | nil => simp [eraseA] at h
  | cons e rest ih =>
    simp only [List.map_cons, List.nodup_cons] at hnd
    by_cases hk : e.1 = k
    · simp only [eraseA, if_pos hk] at h
      refine ⟨List.mem_cons_of_mem _ h, fun hak => ?_⟩
      exact hnd.1 (hk ▸ hak ▸ List.mem_map_of_mem Prod.fst h)
    · simp only [eraseA, if_neg hk, List.mem_cons] at h
      rcases h with h | h
      · exact ⟨h ▸ List.mem_cons_self _ _, h ▸ hk⟩
      · rcases ih hnd.2 h with ⟨h1, h2⟩
        exact ⟨List.mem_cons_of_mem _ h1, h2⟩

theorem mem_eraseA_of_ne {α : Type} {l : List (String × α)} {k : String} {a : String × α}
    (ha : a ∈ l) (h : a.1 ≠ k) : a ∈ eraseA l k := by
  induction l with
  | nil => simp at ha
  | cons e rest ih =>
    rcases List.mem_cons.mp ha with rfl | ha'
    · simp [eraseA, if_neg h]
    · by_cases hk : e.1 = k
      · simpa [eraseA, if_pos hk] using ha'
      · simp only [eraseA, if_neg hk, List.mem_cons]
        exact Or.inr (ih ha')

theorem keys_updateFirstA {α : Type} (l : List (String × α)) (p : String × α → Bool)
    (f : α → α) : (updateFirstA l p f).map Prod.fst = l.map Prod.fst := by
  induction l with
  | nil => simp [updateFirstA]
  | cons e rest ih =>
    by_cases hp : p e
    · simp [updateFirstA, if_pos hp]
    · simp [updateFirstA, if_neg hp, ih]

theorem mem_updateFirstA {α : Type} {l : List (String × α)} {p : String × α → Bool}
    {f : α → α} {a : String × α} (h : a ∈ updateFirstA l p f) :
    a ∈ l ∨ ∃ b ∈ l, p b = true ∧ a = (b.1, f b.2) := by
  induction l with
  | nil => simp [updateFirstA] at h
  | cons e rest ih =>
    by_cases hp : p e
    · simp only [updateFirstA, if_pos hp, List.mem_cons] at h
      rcases h with h | h
      · exact Or.inr ⟨e, List.mem_cons_self _ _, hp, h⟩
      · exact Or.inl (List.mem_cons_of_mem _ h)
    · simp only [updateFirstA, if_neg hp, List.mem_cons] at h
      rcases h with h | h
      · exact Or.inl (h ▸ List.mem_cons_self _ _)
      · rcases ih h with h' | ⟨b, hb, hpb, hab⟩
        · exact Or.inl (List.mem_cons_of_mem _ h')
        · exact Or.inr ⟨b, List.mem_cons_of_mem _ hb, hpb, hab⟩

theorem updateFirstA_of_no_match {α : Type} {l : List (String × α)} {p : String × α → Bool}
    (f : α → α) (h : ∀ e ∈ l, p e = false) : updateFirstA l p f = l := by
  induction l with
  | nil => simp [updateFirstA]
  | cons e rest ih =>
    have he := h e (List.mem_cons_self _ _)
    simp only [updateFirstA, he, Bool.false_eq_true, if_false, List.cons.injEq, true_and]
    exact ih fun x hx => h x (List.mem_cons_of_mem _ hx)

theorem mem_updateFirstA_unique {α : Type} {l : List (String × α)} {p : String × α → Bool}
    {f : α → α} {b0 a : String × α} (hnd : (l.map Prod.fst).Nodup)
    (hu : ∀ e ∈ l, p e = true → e = b0) (h : a ∈ updateFirstA l p f) :
    a = (b0.1, f b0.2) ∨ (a ∈ l ∧ p a = false) := by
  induction l with
  | nil => simp [updateFirstA] at h
  | cons e rest ih =>
    simp only [List.map_cons, List.nodup_cons] at hnd
    by_cases hp : p e
    · have heb : e = b0 := hu e (List.mem_cons_self _ _) hp
      simp only [updateFirstA, if_pos hp, List.mem_cons] at h
      rcases h with h | h
      · exact Or.inl (heb ▸ h)
      · by_cases hpa : p a
        · have hab : a = b0 := hu a (List.mem_cons_of_mem _ h) hpa
          have hmem : e.1 ∈ rest.map Prod.fst := by
            rw [heb, ← hab]
            exact List.mem_map_of_mem Prod.fst h
          exact absurd hmem hnd.1
        · exact Or.inr ⟨List.mem_cons_of_mem _ h, by simpa using hpa⟩
    · simp only [updateFirstA, if_neg hp, List.mem_cons] at h
      rcases h with h | h
      · subst h
        exact Or.inr ⟨List.mem_cons_self _ _, by simpa using hp⟩
      · rcases ih hnd.2 (fun x hx => hu x (List.mem_cons_of_mem _ hx)) h with h' | ⟨h1, h2⟩
        · exact Or.inl h'
        · exact Or.inr ⟨List.mem_cons_of_mem _ h1, h2⟩

theorem exists_mem_updateFirstA {α : Type} {l : List (String × α)} (p : String × α → Bool)
    (f : α → α) {a : String × α} (ha : a ∈ l) :
    a ∈ updateFirstA l p f ∨ (a.1, f a.2) ∈ updateFirstA l p f := by
  induction l with
  | nil => simp at ha
  | cons e rest ih =>
    by_cases hp : p e
    · rcases List.mem_cons.mp ha with rfl | ha'
      · simp [updateFirstA, if_pos hp]
      · simp only [updateFirstA, if_pos hp, List.mem_cons]
        exact Or.inl (Or.inr ha')
    · rcases List.mem_cons.mp ha with rfl | ha'
      · simp [updateFirstA, if_neg hp]
      · simp only [updateFirstA, if_neg hp, List.mem_cons]
        rcases ih ha' with h | h
        · exact Or.inl (Or.inr h)
        · exact Or.inr (Or.inr h)

/-! ### The tunnel-URL pattern

start_cloudflare_tunnel scans every stdout/stderr line with the regex
https://[a-zA-Z0-9-]+\.trycloudflare\.com and takes the first match.  Because
the character class excludes the dot, the greedy plus can only match a maximal
run, so the leftmost match at a position is forced: "https://", then a
nonempty maximal run of [a-zA-Z0-9-], then the literal ".trycloudflare.com". -/

/-- The character class [a-zA-Z0-9-] of the tunnel-URL regex. -/
def isUrlChar (c : Char) : Bool :=
  (('a' ≤ c && c ≤ 'z') || ('A' ≤ c && c ≤ 'Z') || ('0' ≤ c && c ≤ '9') || c = '-')

/-- Try the regex anchored at the head of cs; return the matched characters. -/
def urlMatchAt (cs : List Char) : Option (List Char) :=
  let head := "https://".toList
  let tail := ".trycloudflare.com".toList
  if head.isPrefixOf cs then
    let rest := cs.drop head.length
    let run := rest.takeWhile isUrlChar
    if run.length > 0 && tail.isPrefixOf (rest.drop run.length) then
      some (head ++ run ++ tail)
    else
      none
  else
    none

/-- Leftmost regex match inside one output line (Regex::find). -/
def urlFindIn : List Char → Option String
  | [] => none
  | c :: cs =>
    match urlMatchAt (c :: cs) with
    | some m => some (String.mk m)
    | none => urlFindIn cs

/-- First URL-shaped match over the merged stdout/stderr lines, in arrival
order: the first line containing a match wins, as in the recv loop of
start_cloudflare_tunnel. -/
def extractTunnelUrl (lines : List String) : Option String :=
  lines.findSome? (fun line => urlFindIn line.toList)

/-! ### JSON payloads

serde_json's json! builds a Value whose object map is a BTreeMap, and
to_string serializes keys in sorted order with the standard string escapes
(quote, backslash, and control characters). -/

/-- One hex digit, lowercase, as serde_json writes \u00XX escapes. -/
def hexDigit (n : Nat) : String :=
  if n < 10 then String.singleton (Char.ofNat (48 + n))
  else String.singleton (Char.ofNat (87 + n))

/-- serde_json escaping of one character inside a JSON string literal. -/
def escapeChar (c : Char) : String :=
  if c = '"' then "\\\""
  else if c = '\\' then "\\\\"
  else if c.toNat = 8 then "\\b"
  else if c.toNat = 12 then "\\f"
  else if c = '\n' then "\\n"
  else if c.toNat = 13 then "\\r"
  else if c.toNat = 9 then "\\t"
  else if c.toNat < 32 then "\\u00" ++ hexDigit (c.toNat / 16) ++ hexDigit (c.toNat % 16)
  else String.singleton c

/-- A JSON string literal for s. -/
def jsonString (s : String) : String :=
  "\"" ++ String.join (s.toList.map escapeChar) ++ "\""

/-- to_string of json!({"message": message, "type": message_type}): the keys
"message" < "type" are already in BTreeMap order. -/
def wsMessageJson (message message_type : String) : String :=
  "\x7b\"message\":" ++ jsonString message ++ ",\"type\":" ++ jsonString message_type ++ "\x7d"

/-! ### Data model -/

/-- Ghost record of one registered cloudflared child process.  The Rust
registry stores the CommandChild handle; for the registry invariants we track
whether a public URL was successfully extracted from this process (some url)
or not (none). -/
structure TunnelProc where
  url : Option String
  deriving DecidableEq, Repr

/-- ChatServerHandle.  app_handle (an opaque Tauri handle) is dropped;
abort_handle is modeled by the task id taskId together with the
cancelledTasks ghost list of SysState; websocket_sender is modeled by
subscribers, the number of live broadcast receivers (connected WebSocket
clients) of this server's channel. -/
structure ChatServerHandle where
  port : Nat
  server_url : String
  local_url : Option String
  status : String
  node_id : String
  taskId : Nat
  subscribers : Nat
  has_tunnel : Bool
  tunnel_url : Option String
  deriving DecidableEq, Repr

/-- ChatWebServerResult, the value returned by start_chat_server. -/
structure ChatWebServerResult where
  server_url : String
  actual_port : Nat
  status : String
  message : Option String
  received_message : Option String
  local_url : Option String
  tunnel_status : Option String
  deriving DecidableEq, Repr

/-- Deserialized POST body of /send-message. -/
structure ChatMessage where
  message : String
  sender : Option String
  deriving DecidableEq, Repr

/-- Payload of the chat-message-received event. -/
structure ChatEvent where
  node_id : String
  message : String
  timestamp : Nat
  deriving DecidableEq, Repr

/-- The two process-wide registries (CHAT_SERVER_REGISTRY keyed by
"chat_server_{port}", TUNNEL_REGISTRY keyed by node id), plus the ghost data
for task cancellation: cancelledTasks records every aborted listener task and
nextTask supplies a fresh task id per started server. -/
structure SysState where
  servers : List (String × ChatServerHandle)
  tunnels : List (String × TunnelProc)
  cancelledTasks : List Nat
  nextTask : Nat
  deriving DecidableEq, Repr

/-- The empty registries at process start. -/
def initState : SysState := { servers := [], tunnels := [], cancelledTasks := [], nextTask := 0 }

/-! ### Port allocator -/

/-- OS responses to the bind probes of find_available_port.  canBind p is
whether the transient bind of 0.0.0.0:p succeeds; bindZero is the outcome of
binding 0.0.0.0:0 (ok: the OS-assigned port); localAddrErr is the outcome of
local_addr() on the bound listener (getsockname on a freshly bound socket,
which in reality does not fail - kept so the embedding has every branch of
the source). -/
structure PortEnv where
  canBind : Nat → Bool
  bindZero : Except String Nat
  localAddrErr : Option String

/-- find_available_port.  Ports are u16 values in the source; they are
modeled as Nat since no arithmetic is ever performed on them. -/
def find_available_port (env : PortEnv) (preferred_port : Nat) : Except String Nat :=
  if preferred_port ≠ 0 then
    if env.canBind preferred_port then .ok preferred_port
    else .error ("Port " ++ toString preferred_port ++ " is already in use")
  else
    match env.bindZero with
    | .ok q =>
      match env.localAddrErr with
      | none => .ok q
      | some e => .error ("Failed to get local address: " ++ e)
    | .error e => .error ("Failed to bind to any port: " ++ e)

/-- The local URL built from the first usable LAN address (get_local_ip_addresses),
falling back to 127.0.0.1. -/
def localUrlFor (localIps : List String) (port : Nat) : String :=
  match localIps.head? with
  | some ip => "http://" ++ ip ++ ":" ++ toString port
  | none => "http://127.0.0.1:" ++ toString port

/-! ### Tunnel supervisor -/

/-- Environment outcome of one cloudflared supervision run.  The concurrent
race of the stdout/stderr readers against the 30s timer is shallowly embedded
as: sidecarErr/spawnErr (the two pre-registration failures), completed lines
(the merged output streams ended, with the given lines seen in arrival
order), or timedOut (the 30s deadline fired first; killErr is the outcome of
the subsequent CommandChild::kill, none meaning success). -/
inductive TunnelOutcome where
  | sidecarErr (e : String)
  | spawnErr (e : String)
  | completed (lines : List String)
  | timedOut (killErr : Option String)
  deriving DecidableEq, Repr

/-- stop_cloudflare_tunnel: remove the registered child if present and kill
it; an absent entry is Ok (already stopped).  killErr is the environment's
outcome of CommandChild::kill.  The removal happens regardless of the kill
outcome. -/
def stop_cloudflare_tunnel (tunnels : List (String × TunnelProc)) (node_id : String)
    (killErr : Option String) : Except String Unit × List (String × TunnelProc) :=
  match lookupA tunnels node_id with
  | some _ =>
    (match killErr with
     | none => .ok ()
     | some e => .error ("Failed to stop tunnel: " ++ e),
     eraseA tunnels node_id)
  | none => (.ok (), tunnels)

/-- start_cloudflare_tunnel: spawn cloudflared, register the child under
node_id immediately, then scan the output lines for the URL pattern under the
30s timeout.  On success the extracted URL is returned and the entry stays;
if the streams end without a match the error is returned (the entry stays);
on timeout stop_cloudflare_tunnel removes the just-registered entry.  The
Regex::new error branch is dead for this literal pattern and is omitted. -/
def start_cloudflare_tunnel (tunnels : List (String × TunnelProc)) (node_id : String)
    (outcome : TunnelOutcome) : Except String String × List (String × TunnelProc) :=
  match outcome with
  | .sidecarErr e => (.error ("Failed to create cloudflared command: " ++ e), tunnels)
  | .spawnErr e => (.error ("Failed to spawn cloudflared: " ++ e), tunnels)
  | .completed lines =>
    match extractTunnelUrl lines with
    | some u => (.ok u, insertA tunnels node_id ⟨some u⟩)
    | none => (.error "No tunnel URL found in cloudflared output",
               insertA tunnels node_id ⟨none⟩)
  | .timedOut killErr =>
    (.error "Timeout waiting for tunnel URL",
     (stop_cloudflare_tunnel (insertA tunnels node_id ⟨none⟩) node_id killErr).2)

/-- The error message start_cloudflare_tunnel produces for each failing
outcome (none when the outcome yields a URL). -/
def tunnelFailReason : TunnelOutcome → Option String
  | .sidecarErr e => some ("Failed to create cloudflared command: " ++ e)
  | .spawnErr e => some ("Failed to spawn cloudflared: " ++ e)
  | .completed lines =>
    match extractTunnelUrl lines with
    | some _ => none
    | none => some "No tunnel URL found in cloudflared output"
  | .timedOut _ => some "Timeout waiting for tunnel URL"

/-! ### start_chat_server -/

/-- Environment of one start request: the OS port responses, the LAN address
list, and the cloudflared run outcome (consulted only when enable_global). -/
structure StartEnv where
  portEnv : PortEnv
  localIps : List String
  tunnelOutcome : TunnelOutcome

/-- Result of the optional global-tunnel phase of start_chat_server:
final_server_url/tunnel_url/tunnel_status as computed by the
enable_global match, plus the tunnel registry afterward. -/
structure TunnelPhase where
  final_server_url : String
  tunnel_url : Option String
  tunnel_status : Option String
  tunnels : List (String × TunnelProc)
  deriving DecidableEq, Repr

/-- The enable_global branch of start_chat_server: on tunnel success the
public URL supersedes the local one and the status is "active"; on failure
the local URL is kept and the status carries "failed: {e}"; when global was
not requested the status is "disabled". -/
def tunnelPhase (tunnels : List (String × TunnelProc)) (node_id local_url : String)
    (enable_global : Bool) (outcome : TunnelOutcome) : TunnelPhase :=
  if enable_global then
    match start_cloudflare_tunnel tunnels node_id outcome with
    | (.ok u, ts) => ⟨u, some u, some "active", ts⟩
    | (.error e, ts) => ⟨local_url, none, some ("failed: " ++ e), ts⟩
  else ⟨local_url, none, some "disabled", tunnels⟩

/-- The Korean status message of the start result. -/
def startMessage (enable_global : Bool) (tp : TunnelPhase) : String :=
  if enable_global then
    if tp.tunnel_url.isSome then
      "글로벌 채팅 서버가 " ++ tp.final_server_url ++ "로 시작되었으며 전세계에서 접근 가능합니다"
    else
      "로컬 채팅 서버가 " ++ tp.final_server_url ++ "로 시작되었습니다 (글로벌 터널 실패)"
  else
    "로컬 채팅 서버가 " ++ tp.final_server_url ++ "로 시작되었으며 같은 네트워크에서 접근 가능합니다"

/-- The registry key "chat_server_{port}". -/
def serverKey (port : Nat) : String := "chat_server_" ++ toString port

/-- The ChatServerHandle registered by start_chat_server.  A fresh broadcast
channel starts with its only initial receiver dropped, so subscribers = 0. -/
def mkHandle (actual_port : Nat) (node_id : String) (taskId : Nat) (tp : TunnelPhase)
    (local_url : String) (enable_global : Bool) : ChatServerHandle :=
  { port := actual_port
    server_url := tp.final_server_url
    local_url := some local_url
    status := "running"
    node_id := node_id
    taskId := taskId
    subscribers := 0
    has_tunnel := enable_global && tp.tunnel_url.isSome
    tunnel_url := tp.tunnel_url }

/-- start_chat_server: allocate the port, spawn the warp listener task,
optionally run the tunnel phase, register the handle under
"chat_server_{port}", and return the result.  The SocketAddr parse of
"0.0.0.0:{port}" cannot fail for a u16 port and is omitted.  Note that a
tunnel failure only degrades the result (local URL, "failed: ..." status); it
never fails the operation. -/
def start_chat_server (st : SysState) (port : Nat) (node_id : String)
    (enable_global : Bool) (env : StartEnv) :
    Except String ChatWebServerResult × SysState :=
  match find_available_port env.portEnv port with
  | .error e => (.error e, st)
  | .ok actual_port =>
    let local_url := localUrlFor env.localIps actual_port
    let tp := tunnelPhase st.tunnels node_id local_url enable_global env.tunnelOutcome
    let handle := mkHandle actual_port node_id st.nextTask tp local_url enable_global
    (.ok { server_url := tp.final_server_url
           actual_port := actual_port
           status := "running"
           message := some (startMessage enable_global tp)
           received_message := none
           local_url := some local_url
           tunnel_status := tp.tunnel_status },
     { st with
        servers := insertA st.servers (serverKey actual_port) handle
        tunnels := tp.tunnels
        nextTask := st.nextTask + 1 })

/-! ### Broadcast bus sends -/

/-- tokio::sync::broadcast::Sender::send: delivers the value to every live
receiver and returns their count; it errors (SendError, displayed "channel
closed") exactly when there is no live receiver. -/
def broadcastSend (subscribers : Nat) : Except String Nat :=
  if subscribers = 0 then .error "channel closed" else .ok subscribers

/-- send_to_mobile_with_type: find the first registered handle whose node_id
matches, publish json!({"message": message, "type": message_type}) on its
broadcast channel.  Returns the command result together with the list of
payloads actually published on the bus (empty when nothing was delivered). -/
def send_to_mobile_with_type (st : SysState) (node_id message message_type : String) :
    Except String String × List String :=
  match st.servers.find? (fun e => e.2.node_id == node_id) with
  | some (_, handle) =>
    let message_json := wsMessageJson message message_type
    match broadcastSend handle.subscribers with
    | .ok receiver_count =>
      (if receiver_count = 0 then .ok "Message queued (no active clients)"
       else .ok ("Message sent to " ++ toString receiver_count ++ " clients"),
       [message_json])
    | .error e => (.error ("Failed to send message: " ++ e), [])
  | none => (.error ("No server running for node " ++ node_id), [])

/-- send_to_mobile: the legacy entry point, delegating with type "user". -/
def send_to_mobile (st : SysState) (node_id message : String) :
    Except String String × List String :=
  send_to_mobile_with_type st node_id message "user"

/-! ### The POST /send-message route -/

/-- The acknowledgement body json!({"status": "success", "message": "Message
received"}), kept structured (serde serializes the two keys in sorted order;
as a JSON object the key order is immaterial). -/
structure SendMessageResponse where
  status : String
  message : String
  deriving DecidableEq, Repr

/-- Everything one accepted POST /send-message does: the HTTP response body,
the chat-message-received events emitted to the host app, and the payloads
written to this server's broadcast bus. -/
structure MessageRouteEffect where
  response : SendMessageResponse
  emitted : List ChatEvent
  published : List String
  deriving DecidableEq, Repr

/-- The warp /send-message handler closure of start_chat_server, for a body
that deserialized into chat_msg (malformed bodies are rejected by
warp::body::json before this closure runs).  nowMillis is the wall clock in
milliseconds; the source truncates it with "as u64". -/
def message_route (node_id : String) (nowMillis : Nat) (chat_msg : ChatMessage) :
    MessageRouteEffect :=
  { response := { status := "success", message := "Message received" }
    emitted := [{ node_id := node_id
                  message := chat_msg.message
                  timestamp := nowMillis % (2 ^ 64) }]
    published := [] }

/-! ### Stop operations and status queries -/

/-- stop_chat_server_node: find the first handle whose node_id matches,
remove it, abort its listener task, and - when it had an active tunnel - stop
that tunnel too.  An absent node is a success ("nothing to do").  The inner
removal-failure branch is dead (the entry was just found under the same write
lock) and is omitted; the chat-server-stopped event goes to the host app and
is not tracked.  killErr is the kill outcome should a tunnel process be
stopped (its error is only logged). -/
def stop_chat_server_node (st : SysState) (node_id : String) (killErr : Option String) :
    Except String String × SysState :=
  match st.servers.find? (fun e => e.2.node_id == node_id) with
  | some (server_key, handle) =>
    let servers' := eraseA st.servers server_key
    let tunnels' :=
      if handle.has_tunnel then (stop_cloudflare_tunnel st.tunnels node_id killErr).2
      else st.tunnels
    let message :=
      if handle.has_tunnel then
        "채팅 서버와 글로벌 터널이 성공적으로 중지되었습니다 (포트 " ++ toString handle.port ++
          "에서 실행 중이었음)"
      else
        "채팅 서버가 성공적으로 중지되었습니다 (포트 " ++ toString handle.port ++ "에서 실행 중이었음)"
    (.ok message,
     { st with
        servers := servers'
        tunnels := tunnels'
        cancelledTasks := handle.taskId :: st.cancelledTasks })
  | none => (.ok "이 노드에 대해 실행 중인 서버가 없었습니다", st)

/-- stop_chat_tunnel: stop the cloudflared process, then - only if that
reported success - flip the first matching handle back to tunnel-less state
(local URL, no tunnel).  Note the registry entry is removed even when the
kill fails, but the handle is then left untouched. -/
def stop_chat_tunnel (st : SysState) (node_id : String) (killErr : Option String) :
    Except String String × SysState :=
  match stop_cloudflare_tunnel st.tunnels node_id killErr with
  | (.ok _, tunnels') =>
    let servers' := updateFirstA st.servers (fun e => e.2.node_id == node_id)
      (fun h => { h with
        has_tunnel := false
        tunnel_url := none
        server_url := h.local_url.getD ("http://localhost:" ++ toString h.port) })
    (.ok "Tunnel stopped successfully", { st with servers := servers', tunnels := tunnels' })
  | (.error e, tunnels') => (.error e, { st with tunnels := tunnels' })

/-- The JSON snapshot returned by get_chat_server_info, structured: only
running is always present, the other fields accompany running = true. -/
structure ServerInfo where
  running : Bool
  port : Option Nat
  server_url : Option String
  local_url : Option String
  has_tunnel : Option Bool
  tunnel_url : Option String
  status : Option String
  deriving DecidableEq, Repr

/-- get_chat_server_info: snapshot of the first handle whose node_id matches,
or running = false. -/
def get_chat_server_info (st : SysState) (node_id : String) : ServerInfo :=
  match st.servers.find? (fun e => e.2.node_id == node_id) with
  | some (_, h) =>
    { running := true
      port := some h.port
      server_url := some h.server_url
      local_url := h.local_url
      has_tunnel := some h.has_tunnel
      tunnel_url := h.tunnel_url
      status := some h.status }
  | none =>
    { running := false
      port := none
      server_url := none
      local_url := none
      has_tunnel := none
      tunnel_url := none
      status := none }

/-- get_chat_server_status: whether some matching handle is running. -/
def get_chat_server_status (st : SysState) (node_id : String) : Bool :=
  st.servers.any (fun e => e.2.node_id == node_id && e.2.status == "running")

/-- stop_all_chat_servers: abort every listener task, kill every tunnel
process (best effort), and clear both registries. -/
def stop_all_chat_servers (st : SysState) : SysState :=
  { st with
     servers := []
     tunnels := []
     cancelledTasks := st.servers.map (fun e => e.2.taskId) ++ st.cancelledTasks }

/-- A WebSocket client connecting to or leaving the server stored under key:
the broadcast channel's receiver count changes.  This is the only way the
environment mutates a registered handle. -/
def setSubscribers (st : SysState) (key : String) (n : Nat) : SysState :=
  { st with
     servers := updateFirstA st.servers (fun e => e.1 == key)
       (fun h => { h with subscribers := n }) }

/-! ### Reachable states

One small-step relation per public operation (plus the environment's
WebSocket connect/disconnect).  The send operations read the registries but
never mutate them, which their definitions show by not returning a state;
they appear as stuttering steps so that every public operation is covered. -/

/-- One public operation, with an arbitrary environment. -/
inductive Step : SysState → SysState → Prop
  | start (st : SysState) (port : Nat) (node_id : String) (enable_global : Bool)
      (env : StartEnv) :
      Step st (start_chat_server st port node_id enable_global env).2
  | sendOp (st : SysState) (node_id message message_type : String) :
      Step st st
  | stopServer (st : SysState) (node_id : String) (killErr : Option String) :
      Step st (stop_chat_server_node st node_id killErr).2
  | stopTunnel (st : SysState) (node_id : String) (killErr : Option String) :
      Step st (stop_chat_tunnel st node_id killErr).2
  | stopAll (st : SysState) :
      Step st (stop_all_chat_servers st)
  | subsChange (st : SysState) (key : String) (n : Nat) :
      Step st (setSubscribers st key n)

/-- States reachable from the empty registries. -/
inductive Reachable : SysState → Prop
  | init : Reachable initState
  | step {st st' : SysState} : Reachable st → Step st st' → Reachable st'

/-- The public operations restricted to the runs the amended invariant claims
are safe: every start uses a node id no registered server carries and an
OS-consistent port probe (the OS never reports a port bindable, nor awards an
ephemeral port, whose registry key is already taken by a live server), and
tunnel-only stops kill their process successfully. -/
inductive GoodStep : SysState → SysState → Prop
  | start (st : SysState) (port : Nat) (node_id : String) (enable_global : Bool)
      (env : StartEnv)
      (hfresh : ∀ e ∈ st.servers, e.2.node_id ≠ node_id)
      (hport : ∀ q, find_available_port env.portEnv port = .ok q →
        serverKey q ∉ st.servers.map Prod.fst) :
      GoodStep st (start_chat_server st port node_id enable_global env).2
  | sendOp (st : SysState) (node_id message message_type : String) :
      GoodStep st st
  | stopServer (st : SysState) (node_id : String) (killErr : Option String) :
      GoodStep st (stop_chat_server_node st node_id killErr).2
  | stopTunnel (st : SysState) (node_id : String) :
      GoodStep st (stop_chat_tunnel st node_id none).2
  | stopAll (st : SysState) :
      GoodStep st (stop_all_chat_servers st)
  | subsChange (st : SysState) (key : String) (n : Nat) :
      GoodStep st (setSubscribers st key n)

/-- States reachable through good steps only. -/
inductive GoodReachable : SysState → Prop
  | init : GoodReachable initState
  | step {st st' : SysState} : GoodReachable st → GoodStep st st' → GoodReachable st'

/-! ### Registry invariants -/

/-- Every server-registry entry is keyed by "chat_server_{port}" of its own
handle. -/
def KeyInv (st : SysState) : Prop :=
  ∀ e ∈ st.servers, e.1 = serverKey e.2.port

/-- The server registry holds no duplicate keys (a HashMap cannot). -/
def ServerKeysNodup (st : SysState) : Prop :=
  (st.servers.map Prod.fst).Nodup

/-- The tunnel registry holds no duplicate keys. -/
def TunnelKeysNodup (st : SysState) : Prop :=
  (st.tunnels.map Prod.fst).Nodup

/-- No two registered servers share a node id. -/
def NodeIdsNodup (st : SysState) : Prop :=
  (st.servers.map (fun e => e.2.node_id)).Nodup

instance (st : SysState) : Decidable (ServerKeysNodup st) :=
  inferInstanceAs (Decidable (st.servers.map Prod.fst).Nodup)

instance (st : SysState) : Decidable (TunnelKeysNodup st) :=
  inferInstanceAs (Decidable (st.tunnels.map Prod.fst).Nodup)

instance (st : SysState) : Decidable (NodeIdsNodup st) :=
  inferInstanceAs
    (Decidable (st.servers.map (fun e : String × ChatServerHandle => e.2.node_id)).Nodup)

instance (st : SysState) : Decidable (KeyInv st) :=
  inferInstanceAs (Decidable (∀ e ∈ st.servers, e.1 = serverKey e.2.port))

/-- Whether the tunnel registry holds an entry for node_id from which a
public URL was successfully extracted. -/
def tunnelExtracted (tunnels : List (String × TunnelProc)) (node_id : String) : Bool :=
  match lookupA tunnels node_id with
  | some tp => tp.url.isSome
  | none => false

/-- The claimed cross-registry invariant: a handle has has_tunnel exactly
when a tunnel-registry entry for its node id exists and a public URL was
extracted for it. -/
def TunnelInvariant (st : SysState) : Prop :=
  ∀ e ∈ st.servers, e.2.has_tunnel = tunnelExtracted st.tunnels e.2.node_id

instance (st : SysState) : Decidable (TunnelInvariant st) :=
  inferInstanceAs (Decidable (∀ e ∈ st.servers,
    e.2.has_tunnel = tunnelExtracted st.tunnels e.2.node_id))

/-- Every tunnel entry with an extracted URL belongs to some registered
server handle (no orphaned successful tunnels). -/
def NoOrphanUrl (st : SysState) : Prop :=
  ∀ t ∈ st.tunnels, (TunnelProc.url t.2).isSome = true →
    ∃ e ∈ st.servers, e.2.node_id = t.1

/-! ### Shared concrete environments for witnesses and counterexamples -/

/-- An OS where every probe succeeds and the ephemeral bind yields 49152. -/
def lanPortEnv : PortEnv :=
  { canBind := fun _ => true, bindZero := .ok 49152, localAddrErr := none }

/-- A run whose cloudflared prints a tunnel URL. -/
def envTunnelOk : StartEnv :=
  { portEnv := lanPortEnv
    localIps := ["192.168.0.5"]
    tunnelOutcome := .completed ["INF |  https://demo-test.trycloudflare.com  |"] }

/-- A run whose cloudflared exits without printing any URL. -/
def envNoUrl : StartEnv :=
  { portEnv := lanPortEnv
    localIps := ["192.168.0.5"]
    tunnelOutcome := .completed ["failed to connect"] }

/-! ### C5: the port allocator contract -/

/-- C5: for a preferred port p != 0, find_available_port returns p exactly
when the probe bind of 0.0.0.0:p succeeds and otherwise fails with an error
naming p as unavailable; for p == 0 (with the infallible local_addr accessor
behaving as such) it returns the OS-assigned ephemeral port, failing only
when no port can be bound at all. -/
theorem find_available_port_contract (env : PortEnv) (p : Nat) :
    (p ≠ 0 →
      ((find_available_port env p = .ok p ↔ env.canBind p = true) ∧
       (env.canBind p = false →
         find_available_port env p =
           .error ("Port " ++ toString p ++ " is already in use")))) ∧
    (p = 0 → env.localAddrErr = none →
      ((∀ q, env.bindZero = .ok q → find_available_port env p = .ok q) ∧
       (∀ e, env.bindZero = .error e →
         find_available_port env p =
           .error ("Failed to bind to any port: " ++ e)))) := by
  refine ⟨fun hp => ⟨⟨fun h => ?_, fun hb => ?_⟩, fun hb => ?_⟩,
    fun hp hla => ⟨fun q hq => ?_, fun e he => ?_⟩⟩
  · by_cases hb : env.canBind p = true
    · exact hb
    · simp [find_available_port, hp, hb] at h
  · simp [find_available_port, hp, hb]
  · simp [find_available_port, hp, hb]
  · simp [find_available_port, hp, hq, hla]
  · simp [find_available_port, hp, he]

theorem find_available_port_contract_witness :
    find_available_port lanPortEnv 8080 = .ok 8080 ∧
    find_available_port lanPortEnv 0 = .ok 49152 :=
  ⟨((find_available_port_contract lanPortEnv 8080).1 (by decide)).1.mpr rfl,
   ((find_available_port_contract lanPortEnv 0).2 rfl rfl).1 49152 rfl⟩

/-! ### C7: the /send-message route -/

/-- C7: every accepted POST body is answered with exactly the success
acknowledgement JSON, emits one chat-message-received event carrying the node
id, the message and the millisecond timestamp, and publishes nothing on the
broadcast bus. -/
theorem message_route_contract (node_id : String) (nowMillis : Nat) (msg : ChatMessage) :
    (message_route node_id nowMillis msg).response =
      { status := "success", message := "Message received" } ∧
    (message_route node_id nowMillis msg).emitted =
      [{ node_id := node_id, message := msg.message, timestamp := nowMillis % 2 ^ 64 }] ∧
    (message_route node_id nowMillis msg).published = [] :=
  ⟨rfl, rfl, rfl⟩

/-! ### C10: the legacy send delegates with type "user" -/

/-- C10: send_to_mobile returns the same result and publishes the same bus
payloads as send_to_mobile_with_type with kind "user", and anything it
publishes is exactly json!({"message": message, "type": "user"}). -/
theorem send_to_mobile_refines (st : SysState) (node_id message : String) :
    send_to_mobile st node_id message =
      send_to_mobile_with_type st node_id message "user" ∧
    (send_to_mobile st node_id message).2.all
      (fun x => x == wsMessageJson message "user") = true := by
  refine ⟨rfl, ?_⟩
  rw [send_to_mobile, send_to_mobile_with_type]
  cases hf : st.servers.find? (fun e => e.2.node_id == node_id) with
  | none => simp
  | some e =>
    obtain ⟨k, h⟩ := e
    by_cases hs : h.subscribers = 0
    · simp [broadcastSend, hs]
    · simp [broadcastSend, hs]

/-! ### C2: sending with zero subscribers -/

/-- A running tunnel-less server handle for node n1 with no connected
WebSocket client. -/
def handleNoClients : ChatServerHandle :=
  { port := 8080
    server_url := "http://192.168.0.5:8080"
    local_url := some "http://192.168.0.5:8080"
    status := "running"
    node_id := "n1"
    taskId := 0
    subscribers := 0
    has_tunnel := false
    tunnel_url := none }

/-- A state whose only registered server is handleNoClients. -/
def stNoClients : SysState :=
  { servers := [(serverKey 8080, handleNoClients)]
    tunnels := []
    cancelledTasks := []
    nextTask := 1 }

/-- C2, evaluated at the failing input: with a registered matching server
whose broadcast channel has zero receivers, send_to_mobile_with_type returns
an error (tokio's broadcast send fails with "channel closed" when no receiver
is live), not the success-with-0-recipients the claim states; the Ok(0)
branch producing "Message queued (no active clients)" is unreachable. -/
theorem send_with_zero_subscribers_errors :
    get_chat_server_status stNoClients "n1" = true ∧
    (send_to_mobile_with_type stNoClients "n1" "hello" "user").1 =
      .error "Failed to send message: channel closed" ∧
    (send_to_mobile_with_type stNoClients "n1" "hello" "user").2 = [] :=
  ⟨rfl, rfl, rfl⟩

/-! ### C3: what the tunnel registry holds after a failed start -/

/-- C3 counterexample: when the cloudflared output streams end without any
line matching the URL pattern, start_cloudflare_tunnel returns the error with
the child process still registered under the node id. -/
theorem tunnel_stream_end_leaves_entry :
    (start_cloudflare_tunnel [] "n1" (.completed ["failed to connect"])).1 =
      .error "No tunnel URL found in cloudflared output" ∧
    lookupA (start_cloudflare_tunnel [] "n1" (.completed ["failed to connect"])).2 "n1" =
      some ⟨none⟩ :=
  ⟨rfl, rfl⟩

/-- C3 amended: only the timeout path cleans up: when the 30s timeout fires
the error is returned with no registry entry left for the node id, but when
the output streams end without a matching line the error is returned with the
just-registered (now dead) child still in the registry. -/
theorem tunnel_cleanup_only_on_timeout (tunnels : List (String × TunnelProc))
    (node_id : String) (killErr : Option String) (lines : List String)
    (hnd : (tunnels.map Prod.fst).Nodup) (hnm : extractTunnelUrl lines = none) :
    ((start_cloudflare_tunnel tunnels node_id (.timedOut killErr)).1 =
        .error "Timeout waiting for tunnel URL" ∧
      lookupA (start_cloudflare_tunnel tunnels node_id (.timedOut killErr)).2 node_id =
        none) ∧
    ((start_cloudflare_tunnel tunnels node_id (.completed lines)).1 =
        .error "No tunnel URL found in cloudflared output" ∧
      lookupA (start_cloudflare_tunnel tunnels node_id (.completed lines)).2 node_id =
        some ⟨none⟩) := by
  refine ⟨⟨rfl, ?_⟩, ?_⟩
  · have hlk : lookupA (insertA tunnels node_id (⟨none⟩ : TunnelProc)) node_id =
        some ⟨none⟩ := lookupA_insertA_self tunnels node_id ⟨none⟩
    rw [start_cloudflare_tunnel, stop_cloudflare_tunnel.eq_def, hlk]
    exact lookupA_eraseA_self node_id (nodup_keys_insertA node_id ⟨none⟩ hnd)
  · rw [start_cloudflare_tunnel, hnm]
    exact ⟨rfl, lookupA_insertA_self tunnels node_id ⟨none⟩⟩

theorem tunnel_cleanup_only_on_timeout_witness :
    lookupA (start_cloudflare_tunnel [] "n2" (.timedOut none)).2 "n2" = none :=
  (tunnel_cleanup_only_on_timeout [] "n2" none ["failed to connect"]
    (by simp) rfl).1.2

/-! ### C1: tunnel failures only degrade the start result -/

theorem start_cloudflare_tunnel_error (t : List (String × TunnelProc)) (n : String)
    {o : TunnelOutcome} {reason : String} (h : tunnelFailReason o = some reason) :
    (start_cloudflare_tunnel t n o).1 = .error reason := by
  cases o with
  | sidecarErr e =>
    simp only [tunnelFailReason, Option.some.injEq] at h
    simp [start_cloudflare_tunnel, ← h]
  | spawnErr e =>
    simp only [tunnelFailReason, Option.some.injEq] at h
    simp [start_cloudflare_tunnel, ← h]
  | completed lines =>
    cases hx : extractTunnelUrl lines with
    | none =>
      simp only [tunnelFailReason, hx, Option.some.injEq] at h
      simp [start_cloudflare_tunnel, hx, ← h]
    | some u =>
      simp only [tunnelFailReason, hx] at h
      exact absurd h (by simp)
  | timedOut k =>
    simp only [tunnelFailReason, Option.some.injEq] at h
    simp [start_cloudflare_tunnel, ← h]

theorem tunnelPhase_of_fail (t : List (String × TunnelProc)) (n lu : String)
    {o : TunnelOutcome} {reason : String} (h : tunnelFailReason o = some reason) :
    tunnelPhase t n lu true o =
      ⟨lu, none, some ("failed: " ++ reason), (start_cloudflare_tunnel t n o).2⟩ := by
  have herr := start_cloudflare_tunnel_error t n h
  rw [tunnelPhase]
  simp only [if_true]
  cases hsc : start_cloudflare_tunnel t n o with
  | mk res ts =>
    rw [hsc] at herr
    simp only at herr
    subst herr
    rfl

/-- C1: whenever the port was allocated, enableGlobal was requested and the
tunnel run fails for any reason (sidecar creation or spawn failure, output
ending without a matching URL, or the 30s timeout), start_chat_server still
returns a successful result whose server_url is the local URL (also reported
as local_url) and whose tunnel_status carries "failed: {reason}"; the tunnel
failure is never surfaced as a failure of the start itself. -/
theorem start_degrades_on_tunnel_failure (st : SysState) (port : Nat) (node_id : String)
    (env : StartEnv) {p : Nat} {reason : String}
    (hport : find_available_port env.portEnv port = .ok p)
    (hfail : tunnelFailReason env.tunnelOutcome = some reason) :
    ∃ r, (start_chat_server st port node_id true env).1 = .ok r ∧
      r.server_url = localUrlFor env.localIps p ∧
      r.local_url = some r.server_url ∧
      r.tunnel_status = some ("failed: " ++ reason) := by
  have htp := tunnelPhase_of_fail st.tunnels node_id (localUrlFor env.localIps p) hfail
  rw [start_chat_server.eq_def, hport]
  simp only [htp]
  exact ⟨_, rfl, rfl, rfl, rfl⟩

theorem start_degrades_on_tunnel_failure_witness :
    ∃ r, (start_chat_server initState 8080 "n1" true envNoUrl).1 = .ok r ∧
      r.server_url = localUrlFor envNoUrl.localIps 8080 ∧
      r.local_url = some r.server_url ∧
      r.tunnel_status = some ("failed: " ++ "No tunnel URL found in cloudflared output") :=
  start_degrades_on_tunnel_failure initState 8080 "n1" envNoUrl rfl rfl

/-! ### C6: stopping a server -/

theorem find?_insertA {α : Type} {l : List (String × α)} {k : String} {v : α}
    {p : String × α → Bool} (hp : p (k, v) = true) (hl : ∀ e ∈ l, p e = false) :
    (insertA l k v).find? p = some (k, v) := by
  induction l with
  | nil => simp [insertA, List.find?, hp]
  | cons e rest ih =>
    have he := hl e (List.mem_cons_self _ _)
    by_cases hk : e.1 = k
    · simp [insertA, if_pos hk, List.find?, hp]
    · simp only [insertA, if_neg hk, List.find?, he]
      exact ih fun x hx => hl x (List.mem_cons_of_mem _ hx)

/-- C6: with a registered server for nodeId (unique among registered servers),
stop_chat_server_node succeeds, removes that ServerHandle from the registry,
cancels its listener task, and - when the handle's tunnel was active - leaves
no tunnel-registry entry for nodeId, so a subsequent stop_chat_tunnel for the
same node is a no-op success; with no registered server for nodeId it returns
a "nothing to do" success and changes nothing. -/
theorem stop_chat_server_contract (st : SysState) (node_id : String)
    (killErr : Option String) (hsnd : ServerKeysNodup st) (htnd : TunnelKeysNodup st) :
    (∀ k h, st.servers.find? (fun e => e.2.node_id == node_id) = some (k, h) →
      (∀ e ∈ st.servers, e.2.node_id = node_id → e = (k, h)) →
      ((stop_chat_server_node st node_id killErr).1.isOk = true ∧
       (stop_chat_server_node st node_id killErr).2.servers = eraseA st.servers k ∧
       (∀ e ∈ (stop_chat_server_node st node_id killErr).2.servers,
          e.2.node_id ≠ node_id) ∧
       h.taskId ∈ (stop_chat_server_node st node_id killErr).2.cancelledTasks ∧
       (h.has_tunnel = true →
         lookupA (stop_chat_server_node st node_id killErr).2.tunnels node_id = none ∧
         stop_chat_tunnel (stop_chat_server_node st node_id killErr).2 node_id none =
           (.ok "Tunnel stopped successfully",
            (stop_chat_server_node st node_id killErr).2)))) ∧
    (st.servers.find? (fun e => e.2.node_id == node_id) = none →
      stop_chat_server_node st node_id killErr =
        (.ok "이 노드에 대해 실행 중인 서버가 없었습니다", st)) := by
  constructor
  · intro k h hf hu
    have hers : (stop_chat_server_node st node_id killErr).2.servers =
        eraseA st.servers k := by
      simp only [stop_chat_server_node, hf]
    have hnomatch : ∀ e ∈ (stop_chat_server_node st node_id killErr).2.servers,
        e.2.node_id ≠ node_id := by
      rw [hers]
      intro e he hne
      have h2 := mem_eraseA_key_ne hsnd he
      have h3 := hu e h2.1 hne
      exact h2.2 (by rw [h3])
    have htun : h.has_tunnel = true →
        lookupA (stop_chat_server_node st node_id killErr).2.tunnels node_id = none := by
      intro hht
      have htt : (stop_chat_server_node st node_id killErr).2.tunnels =
          (stop_cloudflare_tunnel st.tunnels node_id killErr).2 := by
        simp only [stop_chat_server_node, hf, hht, if_true]
      rw [htt]
      cases hlk : lookupA st.tunnels node_id with
      | some tp =>
        simp only [stop_cloudflare_tunnel, hlk]
        exact lookupA_eraseA_self node_id htnd
      | none =>
        simp only [stop_cloudflare_tunnel, hlk]
    refine ⟨?_, hers, hnomatch, ?_, fun hht => ⟨htun hht, ?_⟩⟩
    · have hok : (stop_chat_server_node st node_id killErr).1 =
          Except.ok (if h.has_tunnel = true then
            "채팅 서버와 글로벌 터널이 성공적으로 중지되었습니다 (포트 " ++ toString h.port ++
              "에서 실행 중이었음)"
          else
            "채팅 서버가 성공적으로 중지되었습니다 (포트 " ++ toString h.port ++
              "에서 실행 중이었음)") := by
        simp only [stop_chat_server_node, hf]
      rw [hok]
      rfl
    · have hct : (stop_chat_server_node st node_id killErr).2.cancelledTasks =
          h.taskId :: st.cancelledTasks := by
        simp only [stop_chat_server_node, hf]
      rw [hct]
      exact List.mem_cons_self _ _
    · have hsct : stop_cloudflare_tunnel
          (stop_chat_server_node st node_id killErr).2.tunnels node_id none =
          (.ok (), (stop_chat_server_node st node_id killErr).2.tunnels) := by
        simp only [stop_cloudflare_tunnel, htun hht]
      have hall : ∀ e ∈ (stop_chat_server_node st node_id killErr).2.servers,
          (fun e => e.2.node_id == node_id) e = false := fun e he =>
        beq_eq_false_iff_ne.mpr (hnomatch e he)
      simp only [stop_chat_tunnel, hsct, updateFirstA_of_no_match _ hall]
  · intro hf
    simp only [stop_chat_server_node, hf]

/-- A server handle whose tunnel is active, registered together with its
tunnel process. -/
def handleWithTunnel : ChatServerHandle :=
  { port := 8090
    server_url := "https://demo-test.trycloudflare.com"
    local_url := some "http://192.168.0.5:8090"
    status := "running"
    node_id := "n7"
    taskId := 3
    subscribers := 2
    has_tunnel := true
    tunnel_url := some "https://demo-test.trycloudflare.com" }

/-- A state running one server with an active tunnel. -/
def stWithTunnel : SysState :=
  { servers := [(serverKey 8090, handleWithTunnel)]
    tunnels := [("n7", ⟨some "https://demo-test.trycloudflare.com"⟩)]
    cancelledTasks := []
    nextTask := 4 }

theorem stop_chat_server_contract_witness :
    (stop_chat_server_node stWithTunnel "n7" none).1.isOk = true ∧
    lookupA (stop_chat_server_node stWithTunnel "n7" none).2.tunnels "n7" = none ∧
    stop_chat_tunnel (stop_chat_server_node stWithTunnel "n7" none).2 "n7" none =
      (.ok "Tunnel stopped successfully", (stop_chat_server_node stWithTunnel "n7" none).2) := by
  have h := (stop_chat_server_contract stWithTunnel "n7" none (by decide) (by decide)).1
    (serverKey 8090) handleWithTunnel rfl (by decide)
  exact ⟨h.1, (h.2.2.2.2 rfl).1, (h.2.2.2.2 rfl).2⟩

/-! ### C8: the get-info round trip -/

/-- C8 amended: provided nodeId is not carried by any already-registered
server, get_chat_server_info immediately after a successful start reports
running = true with the very port, server_url and local_url of the start
result; and provided at most one registered server carries nodeId,
get_chat_server_info after stop_chat_server_node reports running = false. -/
theorem get_info_roundtrip (st : SysState) (port : Nat) (node_id : String)
    (enable_global : Bool) (env : StartEnv) (killErr : Option String) :
    ((∀ e ∈ st.servers, e.2.node_id ≠ node_id) →
      ∀ r, (start_chat_server st port node_id enable_global env).1 = .ok r →
        ((get_chat_server_info
            (start_chat_server st port node_id enable_global env).2 node_id).running =
          true ∧
         (get_chat_server_info
            (start_chat_server st port node_id enable_global env).2 node_id).port =
          some r.actual_port ∧
         (get_chat_server_info
            (start_chat_server st port node_id enable_global env).2 node_id).server_url =
          some r.server_url ∧
         (get_chat_server_info
            (start_chat_server st port node_id enable_global env).2 node_id).local_url =
          r.local_url)) ∧
    (ServerKeysNodup st →
      (∀ e1 ∈ st.servers, ∀ e2 ∈ st.servers,
        e1.2.node_id = node_id → e2.2.node_id = node_id → e1 = e2) →
      (get_chat_server_info (stop_chat_server_node st node_id killErr).2 node_id).running =
        false) := by
  constructor
  · intro hfresh r hr
    cases hfp : find_available_port env.portEnv port with
    | error e =>
      rw [start_chat_server.eq_def, hfp] at hr
      exact absurd hr (by simp)
    | ok p =>
      rw [start_chat_server.eq_def, hfp] at hr
      have hrr := (Except.ok.inj hr).symm
      subst hrr
      have hfind := find?_insertA
        (l := st.servers) (k := serverKey p)
        (v := mkHandle p node_id st.nextTask
          (tunnelPhase st.tunnels node_id (localUrlFor env.localIps p) enable_global
            env.tunnelOutcome)
          (localUrlFor env.localIps p) enable_global)
        (p := fun e => e.2.node_id == node_id)
        (by simp [mkHandle])
        (fun e he => beq_eq_false_iff_ne.mpr (hfresh e he))
      simp only [start_chat_server, hfp, get_chat_server_info, hfind]
      simp [mkHandle]
  · intro hsnd hu
    cases hf : st.servers.find? (fun e => e.2.node_id == node_id) with
    | none =>
      simp only [stop_chat_server_node, hf, get_chat_server_info]
    | some e =>
      obtain ⟨k, h⟩ := e
      have hfe := List.find?_some hf
      have hmem := List.mem_of_find?_eq_some hf
      have hnone : (eraseA st.servers k).find? (fun e => e.2.node_id == node_id) =
          none := by
        apply List.find?_eq_none.mpr
        intro x hx hpx
        have h2 := mem_eraseA_key_ne hsnd hx
        have hxid : x.2.node_id = node_id := by simpa using hpx
        have hk : x = (k, h) := hu x h2.1 (k, h) hmem hxid (by simpa using hfe)
        exact absurd (by rw [hk]) h2.2
      simp only [stop_chat_server_node, hf, get_chat_server_info, hnone]

theorem get_info_roundtrip_witness :
    ((get_chat_server_info (start_chat_server initState 8080 "n9" false envNoUrl).2
        "n9").running = true) ∧
    ((get_chat_server_info (stop_chat_server_node stNoClients "n1" none).2
        "n1").running = false) := by
  constructor
  · exact ((get_info_roundtrip initState 8080 "n9" false envNoUrl none).1
      (by simp [initState]) _ rfl).1
  · exact (get_info_roundtrip stNoClients 8080 "n1" false envNoUrl none).2
      (by decide) (by decide)

/-- The state after starting a tunnel-less server for n1 on port 8080. -/
def stOneStart : SysState := (start_chat_server initState 8080 "n1" false envNoUrl).2

/-- C8 counterexample: after a second successful start reusing node id n1 on
port 8081, the start result reports port 8081 but get_chat_server_info, whose
linear scan hits the older handle first, reports running = true with port
8080: the claim's round trip fails when a node id is reused. -/
theorem get_info_after_duplicate_start_mismatch :
    ((start_chat_server stOneStart 8081 "n1" false envNoUrl).1.toOption.map
        ChatWebServerResult.actual_port = some 8081) ∧
    (get_chat_server_info (start_chat_server stOneStart 8081 "n1" false envNoUrl).2
        "n1").running = true ∧
    (get_chat_server_info (start_chat_server stOneStart 8081 "n1" false envNoUrl).2
        "n1").port = some 8080 :=
  ⟨rfl, rfl, rfl⟩

/-! ### More registry lemmas -/

theorem eraseA_eq_of_lookupA_none {α : Type} {l : List (String × α)} {k : String}
    (h : lookupA l k = none) : eraseA l k = l := by
  induction l with
  | nil => rfl
  | cons e rest ih =>
    by_cases hk : e.1 = k
    · simp [lookupA, hk] at h
    · simp only [lookupA, if_neg hk] at h
      simp [eraseA, if_neg hk, ih h]

theorem lookupA_of_mem_nodup {α : Type} {l : List (String × α)} {a : String × α}
    (hnd : (l.map Prod.fst).Nodup) (ha : a ∈ l) : lookupA l a.1 = some a.2 := by
  induction l with
  | nil => simp at ha
  | cons e rest ih =>
    simp only [List.map_cons, List.nodup_cons] at hnd
    rcases List.mem_cons.mp ha with rfl | ha'
    · simp [lookupA]
    · have hne : e.1 ≠ a.1 := fun hh => hnd.1 (hh ▸ List.mem_map_of_mem Prod.fst ha')
      simp [lookupA, hne, ih hnd.2 ha']

/-- The tunnel registry after stop_cloudflare_tunnel is always the erasure of
the node's entry (a no-op when no entry was registered). -/
theorem stop_cloudflare_tunnel_tunnels (t : List (String × TunnelProc)) (n : String)
    (k : Option String) : (stop_cloudflare_tunnel t n k).2 = eraseA t n := by
  cases hlk : lookupA t n with
  | some tp => simp [stop_cloudflare_tunnel, hlk]
  | none =>
    simp only [stop_cloudflare_tunnel, hlk]
    exact (eraseA_eq_of_lookupA_none hlk).symm

/-- With a successful kill, stop_cloudflare_tunnel reports Ok and erases the
node's entry. -/
theorem stop_cloudflare_tunnel_ok (t : List (String × TunnelProc)) (n : String) :
    stop_cloudflare_tunnel t n none = (.ok (), eraseA t n) := by
  cases hlk : lookupA t n with
  | some tp => simp [stop_cloudflare_tunnel, hlk]
  | none =>
    simp only [stop_cloudflare_tunnel, hlk]
    rw [eraseA_eq_of_lookupA_none hlk]

theorem map_nodeid_updateFirstA (l : List (String × ChatServerHandle))
    (p : String × ChatServerHandle → Bool) (f : ChatServerHandle → ChatServerHandle)
    (hf : ∀ h, (f h).node_id = h.node_id) :
    (updateFirstA l p f).map (fun e => e.2.node_id) = l.map (fun e => e.2.node_id) := by
  induction l with
  | nil => rfl
  | cons e rest ih =>
    by_cases hp : p e
    · simp [updateFirstA, if_pos hp, hf]
    · simp [updateFirstA, if_neg hp, ih]

theorem nodup_append_singleton {α : Type} {l : List α} {x : α}
    (h : l.Nodup) (hx : x ∉ l) : (l ++ [x]).Nodup := by
  simp [List.nodup_append, h, hx]

/-! ### C9: the server registry is keyed by port -/

theorem regInv_step {st st' : SysState} (h1 : KeyInv st) (h2 : ServerKeysNodup st)
    (hs : Step st st') : KeyInv st' ∧ ServerKeysNodup st' := by
  cases hs with
  | start port node_id eg env =>
    cases hfp : find_available_port env.portEnv port with
    | error e =>
      simp only [start_chat_server, hfp]
      exact ⟨h1, h2⟩
    | ok p =>
      simp only [start_chat_server, hfp, KeyInv, ServerKeysNodup] at *
      refine ⟨fun e he => ?_, nodup_keys_insertA _ _ h2⟩
      rcases mem_insertA he with rfl | he'
      · rfl
      · exact h1 e he'
  | sendOp node_id message message_type => exact ⟨h1, h2⟩
  | stopServer node_id killErr =>
    cases hf : st.servers.find? (fun e => e.2.node_id == node_id) with
    | none =>
      simp only [stop_chat_server_node, hf]
      exact ⟨h1, h2⟩
    | some e =>
      obtain ⟨k, hd⟩ := e
      simp only [stop_chat_server_node, hf, KeyInv, ServerKeysNodup] at *
      exact ⟨fun e he => h1 e (mem_eraseA he), nodup_keys_eraseA _ h2⟩
  | stopTunnel node_id killErr =>
    cases hsc : stop_cloudflare_tunnel st.tunnels node_id killErr with
    | mk res ts =>
      cases res with
      | ok u =>
        simp only [stop_chat_tunnel, hsc, KeyInv, ServerKeysNodup] at *
        refine ⟨fun e he => ?_, ?_⟩
        · rcases mem_updateFirstA he with he' | ⟨b, hb, hpb, rfl⟩
          · exact h1 e he'
          · exact h1 b hb
        · rw [keys_updateFirstA]
          exact h2
      | error er =>
        simp only [stop_chat_tunnel, hsc]
        exact ⟨h1, h2⟩
  | stopAll =>
    simp only [stop_all_chat_servers, KeyInv, ServerKeysNodup]
    constructor
    · intro e he
      simp at he
    · simp
  | subsChange key n =>
    simp only [setSubscribers, KeyInv, ServerKeysNodup] at *
    refine ⟨fun e he => ?_, ?_⟩
    · rcases mem_updateFirstA he with he' | ⟨b, hb, hpb, rfl⟩
      · exact h1 e he'
      · exact h1 b hb
    · rw [keys_updateFirstA]
      exact h2

theorem regInv_reachable {st : SysState} (h : Reachable st) :
    KeyInv st ∧ ServerKeysNodup st := by
  induction h with
  | init =>
    constructor
    · intro e he
      simp [initState] at he
    · simp [ServerKeysNodup, initState]
  | step hr hstep ih => exact regInv_step ih.1 ih.2 hstep

/-- C9: in every reachable state, every server-registry entry is keyed by
"chat_server_" followed by the decimal port of its handle, and consequently
the registry holds at most one handle per port. -/
theorem registry_keyed_by_port {st : SysState} (h : Reachable st) :
    (∀ e ∈ st.servers, e.1 = serverKey e.2.port) ∧
    (∀ e1 ∈ st.servers, ∀ e2 ∈ st.servers, e1.2.port = e2.2.port → e1 = e2) := by
  obtain ⟨h1, h2⟩ := regInv_reachable h
  refine ⟨h1, fun e1 he1 e2 he2 hp => ?_⟩
  have hk : e1.1 = e2.1 := by rw [h1 e1 he1, h1 e2 he2, hp]
  exact List.inj_on_of_nodup_map h2 he1 he2 hk

theorem registry_keyed_by_port_witness :
    stOneStart.servers.all (fun e => e.1 == serverKey e.2.port) = true := by
  have h := (registry_keyed_by_port (Reachable.step Reachable.init
    (Step.start initState 8080 "n1" false envNoUrl))).1
  exact List.all_eq_true.mpr fun e he => beq_iff_eq.mpr (h e he)

/-! ### C4: the tunnel-state invariant -/

/-- Under the no-orphan invariant, a node id carried by no registered server
has no extracted-URL tunnel entry. -/
theorem tunnelExtracted_false_of_fresh {st : SysState} (h6 : NoOrphanUrl st)
    {node_id : String} (hfresh : ∀ e ∈ st.servers, e.2.node_id ≠ node_id) :
    tunnelExtracted st.tunnels node_id = false := by
  cases hlk : lookupA st.tunnels node_id with
  | none => simp [tunnelExtracted, hlk]
  | some tp =>
    cases hurl : tp.url with
    | none => simp [tunnelExtracted, hlk, hurl]
    | some u =>
      exfalso
      obtain ⟨e, he, hnid⟩ := h6 (node_id, tp) (lookupA_mem hlk) (by simp [hurl])
      exact hfresh e he hnid

/-- How one start's tunnel phase relates the new tunnel registry to the old
one: lookups of other node ids are unchanged; the new handle's has_tunnel
value coincides with tunnelExtracted at node_id; the keys stay duplicate-free;
and any extracted-URL entry is either at node_id or was already present. -/
theorem tunnelPhase_facts (st : SysState) (node_id lu : String) (eg : Bool)
    (o : TunnelOutcome) (h3 : TunnelKeysNodup st) (h6 : NoOrphanUrl st)
    (hfresh : ∀ e ∈ st.servers, e.2.node_id ≠ node_id) :
    (∀ m, m ≠ node_id →
      lookupA (tunnelPhase st.tunnels node_id lu eg o).tunnels m =
        lookupA st.tunnels m) ∧
    ((eg && (tunnelPhase st.tunnels node_id lu eg o).tunnel_url.isSome) =
      tunnelExtracted (tunnelPhase st.tunnels node_id lu eg o).tunnels node_id) ∧
    ((tunnelPhase st.tunnels node_id lu eg o).tunnels.map Prod.fst).Nodup ∧
    (∀ t ∈ (tunnelPhase st.tunnels node_id lu eg o).tunnels,
      (TunnelProc.url t.2).isSome = true → t.1 = node_id ∨ t ∈ st.tunnels) := by
  cases eg with
  | false =>
    refine ⟨fun m hm => rfl, ?_, h3, fun t ht hu => Or.inr ht⟩
    simpa [tunnelPhase] using (tunnelExtracted_false_of_fresh h6 hfresh).symm
  | true =>
    cases o with
    | sidecarErr e =>
      refine ⟨fun m hm => rfl, ?_, h3, fun t ht hu => Or.inr ht⟩
      simpa [tunnelPhase, start_cloudflare_tunnel] using
        (tunnelExtracted_false_of_fresh h6 hfresh).symm
    | spawnErr e =>
      refine ⟨fun m hm => rfl, ?_, h3, fun t ht hu => Or.inr ht⟩
      simpa [tunnelPhase, start_cloudflare_tunnel] using
        (tunnelExtracted_false_of_fresh h6 hfresh).symm
    | completed lines =>
      cases hx : extractTunnelUrl lines with
      | some u =>
        simp only [tunnelPhase, start_cloudflare_tunnel, hx, if_true]
        refine ⟨fun m hm => lookupA_insertA_ne _ _ hm, ?_,
          nodup_keys_insertA _ _ h3, fun t ht hu => ?_⟩
        · simp [tunnelExtracted, lookupA_insertA_self]
        · rcases mem_insertA ht with rfl | ht'
          · exact Or.inl rfl
          · exact Or.inr ht'
      | none =>
        simp only [tunnelPhase, start_cloudflare_tunnel, hx, if_true]
        refine ⟨fun m hm => lookupA_insertA_ne _ _ hm, ?_,
          nodup_keys_insertA _ _ h3, fun t ht hu => ?_⟩
        · simp [tunnelExtracted, lookupA_insertA_self]
        · rcases mem_insertA ht with rfl | ht'
          · exact Or.inl rfl
          · exact Or.inr ht'
    | timedOut k =>
      simp only [tunnelPhase, start_cloudflare_tunnel, stop_cloudflare_tunnel_tunnels,
        if_true]
      refine ⟨fun m hm => ?_, ?_, nodup_keys_eraseA _ (nodup_keys_insertA _ _ h3),
        fun t ht hu => ?_⟩
      · rw [lookupA_eraseA_ne _ hm, lookupA_insertA_ne _ _ hm]
      · simp [tunnelExtracted, lookupA_eraseA_self _ (nodup_keys_insertA _ _ h3)]
      · rcases mem_insertA (mem_eraseA ht) with rfl | ht'
        · exact Or.inl rfl
        · exact Or.inr ht'

/-- The composite invariant carried through good runs. -/
def GInv (st : SysState) : Prop :=
  KeyInv st ∧ ServerKeysNodup st ∧ TunnelKeysNodup st ∧ NodeIdsNodup st ∧
    TunnelInvariant st ∧ NoOrphanUrl st

theorem gInv_goodStep {st st' : SysState} (hg : GInv st) (hs : GoodStep st st') :
    GInv st' := by
  obtain ⟨h1, h2, h3, h4, h5, h6⟩ := hg
  cases hs with
  | start port node_id eg env hfresh hport =>
    cases hfp : find_available_port env.portEnv port with
    | error e =>
      simp only [start_chat_server, hfp]
      exact ⟨h1, h2, h3, h4, h5, h6⟩
    | ok p =>
      obtain ⟨P1, P2, P3, P4⟩ := tunnelPhase_facts st node_id (localUrlFor env.localIps p)
        eg env.tunnelOutcome h3 h6 hfresh
      have hkey := hport p hfp
      have hins := insertA_of_not_mem_keys
        (l := st.servers) (k := serverKey p)
        (mkHandle p node_id st.nextTask
          (tunnelPhase st.tunnels node_id (localUrlFor env.localIps p) eg
            env.tunnelOutcome)
          (localUrlFor env.localIps p) eg) hkey
      simp only [start_chat_server, hfp]
      refine ⟨fun e he => ?_, nodup_keys_insertA _ _ h2, P3, ?_, fun e he => ?_,
        fun t ht hu => ?_⟩
      · rcases mem_insertA he with rfl | he'
        · rfl
        · exact h1 e he'
      · show ((insertA st.servers (serverKey p) _).map (fun e => e.2.node_id)).Nodup
        rw [hins, List.map_append]
        refine nodup_append_singleton h4 ?_
        intro hmem
        obtain ⟨e, he, hne⟩ := List.mem_map.mp hmem
        exact hfresh e he hne
      · rcases mem_insertA he with rfl | he'
        · exact P2
        · have hne := hfresh e he'
          show e.2.has_tunnel = tunnelExtracted _ e.2.node_id
          unfold tunnelExtracted
          rw [P1 _ hne]
          exact h5 e he'
      · rcases P4 t ht hu with htn | hto
        · exact ⟨(serverKey p, mkHandle p node_id st.nextTask
              (tunnelPhase st.tunnels node_id (localUrlFor env.localIps p) eg
                env.tunnelOutcome)
              (localUrlFor env.localIps p) eg),
            self_mem_insertA _ _ _, htn.symm⟩
        · obtain ⟨e, he, hnid⟩ := h6 t hto hu
          exact ⟨e, by rw [hins]; exact List.mem_append_left _ he, hnid⟩
  | sendOp node_id message message_type => exact ⟨h1, h2, h3, h4, h5, h6⟩
  | stopServer node_id killErr =>
    cases hf : st.servers.find? (fun e => e.2.node_id == node_id) with
    | none =>
      simp only [stop_chat_server_node, hf]
      exact ⟨h1, h2, h3, h4, h5, h6⟩
    | some pe =>
      obtain ⟨k, hd⟩ := pe
      have hmem := List.mem_of_find?_eq_some hf
      have hfe : hd.node_id = node_id := by simpa using List.find?_some hf
      have huniq : ∀ e ∈ st.servers, e.2.node_id = node_id → e = (k, hd) := by
        intro e he hne
        exact List.inj_on_of_nodup_map h4 he hmem (by rw [hne, hfe])
      have hkinj : ∀ e ∈ st.servers, e.1 = k → e = (k, hd) := by
        intro e he hke
        exact List.inj_on_of_nodup_map h2 he hmem hke
      have hnodeids : (((eraseA st.servers k).map (fun e => e.2.node_id)).Nodup) :=
        ((eraseA_sublist st.servers k).map _).nodup h4
      cases hht : hd.has_tunnel with
      | true =>
        simp only [stop_chat_server_node, hf, hht, if_true,
          stop_cloudflare_tunnel_tunnels]
        refine ⟨fun e he => h1 e (mem_eraseA he), nodup_keys_eraseA _ h2,
          nodup_keys_eraseA _ h3, hnodeids, fun e he => ?_, fun t ht hu => ?_⟩
        · obtain ⟨he', hkne⟩ := mem_eraseA_key_ne h2 he
          have hne : e.2.node_id ≠ node_id := fun hx =>
            hkne (by rw [huniq e he' hx])
          show e.2.has_tunnel = tunnelExtracted _ e.2.node_id
          unfold tunnelExtracted
          rw [lookupA_eraseA_ne _ hne]
          exact h5 e he'
        · obtain ⟨ht', htne⟩ := mem_eraseA_key_ne h3 ht
          obtain ⟨e0, he0, hnid⟩ := h6 t ht' hu
          have hek : e0.1 ≠ k := by
            intro hk0
            have := hkinj e0 he0 hk0
            rw [this] at hnid
            exact htne (by rw [← hnid, hfe])
          exact ⟨e0, mem_eraseA_of_ne he0 hek, hnid⟩
      | false =>
        simp only [stop_chat_server_node, hf, hht, Bool.false_eq_true, if_false]
        refine ⟨fun e he => h1 e (mem_eraseA he), nodup_keys_eraseA _ h2, h3,
          hnodeids, fun e he => h5 e (mem_eraseA he), fun t ht hu => ?_⟩
        · obtain ⟨e0, he0, hnid⟩ := h6 t ht hu
          have hek : e0.1 ≠ k := by
            intro hk0
            have he0d := hkinj e0 he0 hk0
            have hextr : tunnelExtracted st.tunnels node_id = true := by
              have hlk := lookupA_of_mem_nodup h3 ht
              have ht1 : t.1 = node_id := by
                rw [he0d] at hnid
                rw [← hnid, hfe]
              rw [ht1] at hlk
              simp [tunnelExtracted, hlk, hu]
            have hfalse := h5 (k, hd) hmem
            rw [hfe, hextr, hht] at hfalse
            exact Bool.false_ne_true hfalse
          exact ⟨e0, mem_eraseA_of_ne he0 hek, hnid⟩
  | stopTunnel node_id =>
    have hres := stop_cloudflare_tunnel_ok st.tunnels node_id
    simp only [stop_chat_tunnel, hres]
    refine ⟨fun e he => ?_, ?_, nodup_keys_eraseA _ h3, ?_, ?_, fun t ht hu => ?_⟩
    · rcases mem_updateFirstA he with he' | ⟨b, hb, hpb, rfl⟩
      · exact h1 e he'
      · exact h1 b hb
    · show ((updateFirstA st.servers _ _).map Prod.fst).Nodup
      rw [keys_updateFirstA]
      exact h2
    · show ((updateFirstA st.servers _ _).map (fun e => e.2.node_id)).Nodup
      rw [map_nodeid_updateFirstA st.servers (fun e => e.2.node_id == node_id)
        (fun h => { h with
          has_tunnel := false
          tunnel_url := none
          server_url := h.local_url.getD ("http://localhost:" ++ toString h.port) })
        (fun h => rfl)]
      exact h4
    · by_cases hex : ∃ b ∈ st.servers, b.2.node_id = node_id
      · obtain ⟨b0, hb0, hb0n⟩ := hex
        have hu : ∀ e ∈ st.servers, (fun e => e.2.node_id == node_id) e = true →
            e = b0 := by
          intro e he hpe
          have hpe' : e.2.node_id = node_id := by simpa using hpe
          exact List.inj_on_of_nodup_map h4 he hb0 (by rw [hpe', hb0n])
        intro e he
        rcases mem_updateFirstA_unique h2 hu he with rfl | ⟨he', hpe⟩
        · show false = tunnelExtracted (eraseA st.tunnels node_id) b0.2.node_id
          rw [hb0n]
          unfold tunnelExtracted
          rw [lookupA_eraseA_self _ h3]
        · have hne : e.2.node_id ≠ node_id := by simpa using hpe
          show e.2.has_tunnel = tunnelExtracted _ e.2.node_id
          unfold tunnelExtracted
          rw [lookupA_eraseA_ne _ hne]
          exact h5 e he'
      · push_neg at hex
        rw [updateFirstA_of_no_match _
          (fun e he => beq_eq_false_iff_ne.mpr (hex e he))]
        intro e he
        have hne := hex e he
        show e.2.has_tunnel = tunnelExtracted _ e.2.node_id
        unfold tunnelExtracted
        rw [lookupA_eraseA_ne _ hne]
        exact h5 e he
    · obtain ⟨ht', htne⟩ := mem_eraseA_key_ne h3 ht
      obtain ⟨e0, he0, hnid⟩ := h6 t ht' hu
      rcases exists_mem_updateFirstA (fun e => e.2.node_id == node_id)
        (fun h => { h with
          has_tunnel := false
          tunnel_url := none
          server_url := h.local_url.getD ("http://localhost:" ++ toString h.port) })
        he0 with hin | hin
      · exact ⟨e0, hin, hnid⟩
      · exact ⟨_, hin, hnid⟩
  | stopAll =>
    refine ⟨fun e he => ?_, ?_, ?_, ?_, fun e he => ?_, fun t ht hu => ?_⟩ <;>
      simp_all [stop_all_chat_servers, ServerKeysNodup, TunnelKeysNodup, NodeIdsNodup]
  | subsChange key n =>
    refine ⟨fun e he => ?_, ?_, h3, ?_, fun e he => ?_, fun t ht hu => ?_⟩
    · rcases mem_updateFirstA he with he' | ⟨b, hb, hpb, rfl⟩
      · exact h1 e he'
      · exact h1 b hb
    · show ((updateFirstA st.servers _ _).map Prod.fst).Nodup
      rw [keys_updateFirstA]
      exact h2
    · show ((updateFirstA st.servers _ _).map (fun e => e.2.node_id)).Nodup
      rw [map_nodeid_updateFirstA st.servers (fun e => e.1 == key)
        (fun h => { h with subscribers := n }) (fun h => rfl)]
      exact h4
    · rcases mem_updateFirstA he with he' | ⟨b, hb, hpb, rfl⟩
      · exact h5 e he'
      · exact h5 b hb
    · obtain ⟨e0, he0, hnid⟩ := h6 t ht hu
      rcases exists_mem_updateFirstA (fun e => e.1 == key)
        (fun h => { h with subscribers := n }) he0 with hin | hin
      · exact ⟨e0, hin, hnid⟩
      · exact ⟨_, hin, hnid⟩

theorem gInv_goodReachable {st : SysState} (h : GoodReachable st) : GInv st := by
  induction h with
  | init =>
    refine ⟨fun e he => ?_, ?_, ?_, ?_, fun e he => ?_, fun t ht hu => ?_⟩ <;>
      simp_all [initState, ServerKeysNodup, TunnelKeysNodup, NodeIdsNodup]
  | step hr hstep ih => exact gInv_goodStep ih hstep

/-- C4 amended: in every state reachable through runs in which every start
uses a node id no registered server carries (and an OS-consistent port
answer) and every tunnel-only stop kills its process successfully, each
registered handle has has_tunnel exactly when the tunnel registry holds an
entry for its node id from which a public URL was extracted. -/
theorem tunnel_state_invariant {st : SysState} (h : GoodReachable st) :
    TunnelInvariant st :=
  (gInv_goodReachable h).2.2.2.2.1

theorem tunnel_state_invariant_witness : TunnelInvariant stOneStart := by
  have hfresh : ∀ e ∈ initState.servers, e.2.node_id ≠ "n1" := by
    intro e he
    simp [initState] at he
  have hport : ∀ q, find_available_port envNoUrl.portEnv 8080 = .ok q →
      serverKey q ∉ initState.servers.map Prod.fst := by
    intro q hq
    simp [initState]
  exact tunnel_state_invariant (GoodReachable.step GoodReachable.init
    (GoodStep.start initState 8080 "n1" false envNoUrl hfresh hport))

/-- C4 counterexample: starting n1 with a successful tunnel and then starting
n1 again (fresh port, no tunnel) reaches, by public operations alone, a state
whose second handle has has_tunnel = false although the tunnel registry still
holds the extracted-URL entry for n1: the claimed invariant fails once a node
id is reused. -/
theorem tunnel_state_invariant_fails :
    Reachable (start_chat_server (start_chat_server initState 8080 "n1" true
      envTunnelOk).2 8081 "n1" false envNoUrl).2 ∧
    ¬ TunnelInvariant (start_chat_server (start_chat_server initState 8080 "n1" true
      envTunnelOk).2 8081 "n1" false envNoUrl).2 :=
  ⟨Reachable.step (Reachable.step Reachable.init
      (Step.start initState 8080 "n1" true envTunnelOk))
      (Step.start (start_chat_server initState 8080 "n1" true envTunnelOk).2 8081 "n1"
        false envNoUrl),
   by decide⟩

end ChatWebServer
